import Mathlib

/-
Shallow embedding of the OCM agent RHOBS webhook receiver
(src/pkg/handlers/webhookrhobsreceiver.go) together with the operator data
model it manipulates (ManagedFleetNotificationRecord and its condition
ledger).  Go slices are modelled as Lean lists; a nil slice is distinguished
from an empty one with Option, because the source distinguishes them when
appending and when checking for an initialized status.  Machine timestamps
are modelled as Nat time units; the resend wait is a Nat in the same units.
External collaborators (the Kubernetes client and the OCM service log API)
are modelled by an explicit store (a map from record name to record), a
fault-injection environment choosing the outcome of each external call, and
a trace of the external calls the handler performs.
-/

/-- Condition types of the notification ledger: AlertFiring, AlertResolved
and NotificationSent, mirroring the operator API condition type constants. -/
inductive NotificationConditionType where
  | alertFiring
  | alertResolved
  | notificationSent
deriving DecidableEq, Repr

/-- One timestamped condition of the ledger: a type, a boolean status and
the last transition timestamp. -/
structure NotificationCondition where
  condType : NotificationConditionType
  condStatus : Bool
  lastTransitionTime : Nat
deriving DecidableEq, Repr

/-- Per hosted cluster record item: the hosted cluster id, the count of
service logs sent for it, and its own condition ledger. -/
structure NotificationRecordItem where
  hostedClusterID : String
  serviceLogSentCount : Nat
  conditions : List NotificationCondition
deriving DecidableEq, Repr

/-- Record of one notification template inside a fleet record: the template
name, the resend wait copied from the template at creation time, and the
per hosted cluster items.  The items field is an Option so that a Go nil
slice (as written by addNotificationRecordByName) stays distinguishable
from a non-nil slice. -/
structure NotificationRecordByName where
  notificationName : String
  resendWait : Nat
  notificationRecordItems : Option (List NotificationRecordItem)
deriving DecidableEq, Repr

/-- Status of a ManagedFleetNotificationRecord: the management cluster id
and the list of per template records (Option again models Go nil). -/
structure ManagedFleetNotificationRecordStatus where
  managementCluster : String
  notificationRecordByName : Option (List NotificationRecordByName)
deriving DecidableEq, Repr

/-- A ManagedFleetNotificationRecord: its object name (the management
cluster id it is keyed by) and its status. -/
structure ManagedFleetNotificationRecord where
  name : String
  status : ManagedFleetNotificationRecordStatus
deriving DecidableEq, Repr

/-- Static fleet notification definition carried by a
ManagedFleetNotification: summary, active description, severity, log type,
references and the resend wait, as used by processAlert. -/
structure FleetNotification where
  name : String
  summary : String
  notificationMessage : String
  severity : String
  logType : String
  references : List String
  resendWait : Nat
deriving DecidableEq, Repr

/-- Spec of a ManagedFleetNotification, holding the fleet notification. -/
structure ManagedFleetNotificationSpec where
  fleetNotification : FleetNotification
deriving DecidableEq, Repr

/-- A ManagedFleetNotification template object. -/
structure ManagedFleetNotification where
  spec : ManagedFleetNotificationSpec
deriving DecidableEq, Repr

/-- An inbound Alertmanager alert: its status string and its label map,
modelled as an association list. -/
structure Alert where
  astatus : String
  labels : List (String × String)
deriving DecidableEq, Repr

/-- Lookup in a Go map of strings: a missing key yields the zero value,
the empty string. -/
def goLookup (labels : List (String × String)) (key : String) : String :=
  match labels.find? (fun p => p.1 == key) with
  | some p => p.2
  | none => ""

/-- Label name for the notification template, from the receiver handlers. -/
def AMLabelTemplateName : String := "managed_notification_template"

/-- Label name for the alert name, from the receiver handlers. -/
def AMLabelAlertName : String := "alertname"

/-- Label name marking an alert as actionable, from the receiver handlers. -/
def AMLabelManagedNotification : String := "send_managed_notification"

/-- Label carrying the management cluster id of a fleet alert.  The exact
constant lives in the receiver source that is not part of this snapshot;
the spec describes it as an alert_mc_id style identifier. -/
def AMLabelAlertMCID : String := "alert_mc_id"

/-- Label carrying the hosted cluster id of a fleet alert.  The exact
constant lives in the receiver source that is not part of this snapshot;
the spec describes it as an alert_hc_id style identifier. -/
def AMLabelAlertHCID : String := "alert_hc_id"

/-- Management cluster id of an alert, read from its labels. -/
def mcIdOf (alert : Alert) : String := goLookup alert.labels AMLabelAlertMCID

/-- Hosted cluster id of an alert, read from its labels. -/
def hcIdOf (alert : Alert) : String := goLookup alert.labels AMLabelAlertHCID

/-- Modelled from the spec: isValidAlert of the receiver package is not in
this source snapshot.  Per the spec an alert is actionable when the
alertname label and the template label are present and the
send_managed_notification label carries the truthy marker "true". -/
def isValidAlert (alert : Alert) : Bool :=
  goLookup alert.labels AMLabelAlertName != "" &&
  goLookup alert.labels AMLabelTemplateName != "" &&
  goLookup alert.labels AMLabelManagedNotification == "true"

/-- List of per template records of a fleet record, a Go nil slice reading
as the empty list. -/
def rbnList (mfnr : ManagedFleetNotificationRecord) : List NotificationRecordByName :=
  mfnr.status.notificationRecordByName.getD []

/-- List of items of a per template record, a Go nil slice reading as the
empty list. -/
def itemsOf (rbn : NotificationRecordByName) : List NotificationRecordItem :=
  rbn.notificationRecordItems.getD []

/-- First record with the given notification name, scanning in order. -/
def findRBN : List NotificationRecordByName → String → Option NotificationRecordByName
  | [], _ => none
  | r :: rs, n => if r.notificationName == n then some r else findRBN rs n

/-- Rewrite the first record with the given notification name through f,
leaving every other record unchanged.  This models a Go write through a
pointer into the status slice. -/
def mapFirstRBN : List NotificationRecordByName → String →
    (NotificationRecordByName → NotificationRecordByName) → List NotificationRecordByName
  | [], _, _ => []
  | r :: rs, n, f =>
      if r.notificationName == n then f r :: rs else r :: mapFirstRBN rs n f

/-- Rewrite the first item with the given hosted cluster id through f. -/
def mapFirstItem : List NotificationRecordItem → String →
    (NotificationRecordItem → NotificationRecordItem) → List NotificationRecordItem
  | [], _, _ => []
  | it :: its, h, f =>
      if it.hostedClusterID == h then f it :: its else it :: mapFirstItem its h f

/-- First item with the given hosted cluster id. -/
def findItem (its : List NotificationRecordItem) (hcID : String) :
    Option NotificationRecordItem :=
  its.find? (fun it => it.hostedClusterID == hcID)

/-- Modelled from the spec: GetNotificationRecordByName of the operator API
is not in this source snapshot.  The record store is keyed per management
cluster, so the lookup checks the management cluster id of the status and
then searches the per template records for an exact name match; a miss is
an error, modelled as none. -/
def getNotificationRecordByName (mfnr : ManagedFleetNotificationRecord)
    (mcID name : String) : Option NotificationRecordByName :=
  if mfnr.status.managementCluster == mcID then findRBN (rbnList mfnr) name
  else none

/-- Modelled from the spec: GetNotificationRecordItem of the operator API
is not in this source snapshot.  It resolves the per template record for
the (management cluster, notification name) pair and then the item for the
hosted cluster id; a miss at either level is an error, modelled as none. -/
def getNotificationRecordItem (mfnr : ManagedFleetNotificationRecord)
    (mcID name hcID : String) : Option NotificationRecordItem :=
  match getNotificationRecordByName mfnr mcID name with
  | none => none
  | some rbn => findItem (itemsOf rbn) hcID

/-- Fresh per hosted cluster item: zero sent count, empty condition set. -/
def newNotificationRecordItem (hcID : String) : NotificationRecordItem :=
  { hostedClusterID := hcID, serviceLogSentCount := 0, conditions := [] }

/-- Modelled from the spec: AddNotificationRecordItem of the operator API
is not in this source snapshot.  It creates an item for the hosted cluster
id with an initialized empty condition set and appends it to the item
slice of the record it is given, returning the item and the grown record
(the growth lands wherever the given record lives, which is how the Go
pointer argument behaves). -/
def addNotificationRecordItem (hcID : String) (rbn : NotificationRecordByName) :
    NotificationRecordItem × NotificationRecordByName :=
  let it := newNotificationRecordItem hcID
  (it, { rbn with notificationRecordItems := some (itemsOf rbn ++ [it]) })

/-- Condition of the given type inside a ledger, scanning in order. -/
def getCondition (conds : List NotificationCondition)
    (t : NotificationConditionType) : Option NotificationCondition :=
  conds.find? (fun c => c.condType == t)

/-- Upsert of a condition by type: replace the first condition of the type
in place, or append a new one; conditions of other types are preserved. -/
def setCondition : List NotificationCondition → NotificationConditionType →
    Bool → Nat → List NotificationCondition
  | [], t, s, now => [{ condType := t, condStatus := s, lastTransitionTime := now }]
  | c :: cs, t, s, now =>
      if c.condType == t then
        { condType := t, condStatus := s, lastTransitionTime := now } :: cs
      else c :: setCondition cs t s now

/-- Modelled from the spec: CanBeSent of the operator API is not in this
source snapshot.  For the firing alerts this receiver processes, the resend
policy allows a send when the item has no NotificationSent condition yet
(first send), and otherwise exactly when now minus the last transition time
of that condition has reached the resend wait of the per template record.
A missing per template record or item is an error, modelled as none. -/
def canBeSent (mfnr : ManagedFleetNotificationRecord) (mcID name hcID : String)
    (now : Nat) : Option Bool :=
  match getNotificationRecordByName mfnr mcID name with
  | none => none
  | some rbn =>
    match findItem (itemsOf rbn) hcID with
    | none => none
    | some it =>
      match getCondition it.conditions NotificationConditionType.notificationSent with
      | none => some true
      | some c => some (decide (c.lastTransitionTime + rbn.resendWait ≤ now))

/-- Ledger update applied to an item on a successful send of a firing
notification: AlertFiring true, AlertResolved false, NotificationSent true,
all timestamped now, and the sent counter incremented by one. -/
def updateItem (now : Nat) (it : NotificationRecordItem) : NotificationRecordItem :=
  { it with
    serviceLogSentCount := it.serviceLogSentCount + 1,
    conditions :=
      setCondition
        (setCondition
          (setCondition it.conditions NotificationConditionType.alertFiring true now)
          NotificationConditionType.alertResolved false now)
        NotificationConditionType.notificationSent true now }

/-- Modelled from the spec: UpdateNotificationRecordItem of the operator
API is not in this source snapshot.  On a successful send it sets the three
ledger conditions timestamped now and increments the sent counter of the
item for the hosted cluster id under the named per template record,
returning the updated record, or none (an error) when the per template
record or the item does not exist. -/
def updateNotificationRecordItem (mfnr : ManagedFleetNotificationRecord)
    (name hcID : String) (now : Nat) : Option ManagedFleetNotificationRecord :=
  match findRBN (rbnList mfnr) name with
  | none => none
  | some rbn =>
    match findItem (itemsOf rbn) hcID with
    | none => none
    | some _ =>
      let upd : NotificationRecordByName → NotificationRecordByName := fun r =>
        { r with notificationRecordItems := some (mapFirstItem (itemsOf r) hcID (updateItem now)) }
      let newList := mapFirstRBN (rbnList mfnr) name upd
      some { mfnr with status := { mfnr.status with notificationRecordByName := some newList } }

/-- addNotificationRecordByName of webhookrhobsreceiver.go: build a fresh
per template record with a nil item slice, append it (by value, hence as a
copy) to the status slice of the fleet record, then add the item for the
hosted cluster id to the local record value.  The item therefore lands only
in the returned local value, never in the copy stored in the status: the Go
source appends nfrbn before passing a pointer to the local nfrbn variable
to AddNotificationRecordItem. -/
def addNotificationRecordByName (name : String) (rswait : Nat) (hcID : String)
    (mfrn : ManagedFleetNotificationRecord) :
    NotificationRecordByName × ManagedFleetNotificationRecord :=
  let nfrbn : NotificationRecordByName :=
    { notificationName := name, resendWait := rswait, notificationRecordItems := none }
  let newStatus : ManagedFleetNotificationRecordStatus :=
    { mfrn.status with notificationRecordByName := some (rbnList mfrn ++ [nfrbn]) }
  ((addNotificationRecordItem hcID nfrbn).2, { mfrn with status := newStatus })

/-- createManagedFleetNotificationRecord of webhookrhobsreceiver.go builds
this record: named after the management cluster id, with a status carrying
the management cluster id and a nil per template record slice. -/
def createManagedFleetNotificationRecord (mcID : String) :
    ManagedFleetNotificationRecord :=
  { name := mcID,
    status := { managementCluster := mcID, notificationRecordByName := none } }

/-- Initial status written by processAlert when the fetched record has an
empty status: the management cluster id and an empty (non nil) slice. -/
def setInitialStatus (mcID : String) (mfnr : ManagedFleetNotificationRecord) :
    ManagedFleetNotificationRecord :=
  { mfnr with
    status := { managementCluster := mcID, notificationRecordByName := some [] } }

/-- Outcome classes of a Kubernetes client call, as the handler
distinguishes them: not found, an optimistic concurrency conflict, an
already-exists failure of create, and any other error. -/
inductive K8sErr where
  | notFound
  | conflict
  | alreadyExists
  | internalErr
deriving DecidableEq, Repr

/-- Fault injection environment for one processAlert call: optional
injected failures of the record fetch, the record create, the initial
status update, the service log send and the final status update, plus the
current time used by the resend policy and the ledger update. -/
structure FaultEnv where
  getErr : Option K8sErr
  createErr : Option K8sErr
  initialUpdateErr : Option K8sErr
  sendErr : Option String
  updateErr : Option K8sErr
  now : Nat
deriving Repr

/-- External calls processAlert performs, in order: a record fetch, a
record create, a status update write, and a service log send with the
argument list of OCMClient.SendServiceLog. -/
inductive Event where
  | getRecord (mcID : String)
  | createRecord (rec : ManagedFleetNotificationRecord)
  | statusUpdate (rec : ManagedFleetNotificationRecord)
  | sendServiceLog (summary activeDesc resolvedDesc clusterID severity logType : String)
      (references : List String) (isFiring : Bool)
deriving DecidableEq, Repr

/-- Which step of processAlert failed; processAlert returns some of these
exactly when the Go function returns a non nil error. -/
inductive ProcErr where
  | fetchFailed
  | createFailed
  | initialStatusFailed
  | canBeSentFailed
  | sendFailed
  | updateItemFailed
  | statusUpdateFailed
deriving DecidableEq, Repr

/-- The persisted record store: records keyed by object name. -/
def Store : Type := String → Option ManagedFleetNotificationRecord

/-- Write a record into the store under its own object name. -/
def storeSet (store : Store) (rec : ManagedFleetNotificationRecord) : Store :=
  fun k => if k == rec.name then some rec else store k

/-- Fetch of a record by name: an injected fault wins, otherwise a store
miss is a not found error. -/
def storeGet (store : Store) (key : String) (env : FaultEnv) :
    Except K8sErr ManagedFleetNotificationRecord :=
  match env.getErr with
  | some e => Except.error e
  | none =>
    match store key with
    | some r => Except.ok r
    | none => Except.error K8sErr.notFound

/-- Create of a record: fails when a record of that name already exists or
when a create fault is injected, otherwise persists the record. -/
def storeCreate (store : Store) (rec : ManagedFleetNotificationRecord)
    (env : FaultEnv) : Except K8sErr Store :=
  if (store rec.name).isSome then Except.error K8sErr.alreadyExists
  else
    match env.createErr with
    | some e => Except.error e
    | none => Except.ok (storeSet store rec)

/-- Service log send event as processAlert emits it: the alert is always
processed as firing, so the resolved description is the empty string and
isFiring is true (lines 184 of webhookrhobsreceiver.go). -/
def sendEventFor (fn : FleetNotification) (hcID : String) : Event :=
  Event.sendServiceLog fn.summary fn.notificationMessage "" hcID fn.severity
    fn.logType fn.references true

/-- Locate or add phase of processAlert (lines 148 to 166 of
webhookrhobsreceiver.go): when the per template record exists but its item
for the hosted cluster does not, the item is added through the pointer into
the status slice; when the per template record itself is missing, the Go
code appends a copy of a fresh record to the status and then calls
GetNotificationRecordItem and AddNotificationRecordItem against the
returned local value, whose mutation is dropped, so the record carried
forward is exactly the one produced by addNotificationRecordByName. -/
def locateRecord (fn : FleetNotification) (mcID hcID : String)
    (mfnr : ManagedFleetNotificationRecord) : ManagedFleetNotificationRecord :=
  match getNotificationRecordByName mfnr mcID fn.name with
  | some _ =>
    match getNotificationRecordItem mfnr mcID fn.name hcID with
    | some _ => mfnr
    | none =>
      let upd : NotificationRecordByName → NotificationRecordByName := fun r =>
        (addNotificationRecordItem hcID r).2
      let newList := mapFirstRBN (rbnList mfnr) fn.name upd
      { mfnr with status := { mfnr.status with notificationRecordByName := some newList } }
  | none => (addNotificationRecordByName fn.name fn.resendWait hcID mfnr).2

/-- Core of processAlert after the record is in hand and its status is
known to be initialized: locate or add the per template record and item,
consult the resend policy (an error there is terminal, a negative answer a
silent no-op success), send the service log, update the ledger and persist
(lines 148 to 208 of webhookrhobsreceiver.go). -/
def processAlertMain (fn : FleetNotification) (mcID hcID : String)
    (mfnr : ManagedFleetNotificationRecord) (tr : List Event) (store : Store)
    (env : FaultEnv) : Option ProcErr × List Event × Store :=
  let m2 := locateRecord fn mcID hcID mfnr
  match canBeSent m2 mcID fn.name hcID env.now with
  | none => (some ProcErr.canBeSentFailed, tr, store)
  | some false => (none, tr, store)
  | some true =>
    let tr1 := tr ++ [sendEventFor fn hcID]
    match env.sendErr with
    | some _ => (some ProcErr.sendFailed, tr1, store)
    | none =>
      match updateNotificationRecordItem m2 fn.name hcID env.now with
      | none => (some ProcErr.updateItemFailed, tr1, store)
      | some m3 =>
        let tr2 := tr1 ++ [Event.statusUpdate m3]
        match env.updateErr with
        | some _ => (some ProcErr.statusUpdateFailed, tr2, store)
        | none => (none, tr2, storeSet store m3)

/-- Status initialization step of processAlert (lines 132 to 146 of
webhookrhobsreceiver.go): when the record status carries no management
cluster id, write an initial status before any further logic, failing the
call when that write fails. -/
def processAlertFrom (fn : FleetNotification) (mcID hcID : String)
    (mfnr : ManagedFleetNotificationRecord) (tr : List Event) (store : Store)
    (env : FaultEnv) : Option ProcErr × List Event × Store :=
  if mfnr.status.managementCluster == "" then
    let m1 := setInitialStatus mcID mfnr
    match env.initialUpdateErr with
    | some _ => (some ProcErr.initialStatusFailed, tr ++ [Event.statusUpdate m1], store)
    | none =>
      processAlertMain fn mcID hcID m1 (tr ++ [Event.statusUpdate m1]) (storeSet store m1) env
  else processAlertMain fn mcID hcID mfnr tr store env

/-- processAlert of webhookrhobsreceiver.go: fetch the
ManagedFleetNotificationRecord named by the management cluster id of the
alert, creating it when it is not found (any other fetch failure is
terminal), then run the status initialization and the send pipeline. -/
def processAlert (alert : Alert) (mfn : ManagedFleetNotification)
    (store : Store) (env : FaultEnv) : Option ProcErr × List Event × Store :=
  let fn := mfn.spec.fleetNotification
  let mcID := mcIdOf alert
  let hcID := hcIdOf alert
  let tr0 := [Event.getRecord mcID]
  match storeGet store mcID env with
  | Except.ok mfnr => processAlertFrom fn mcID hcID mfnr tr0 store env
  | Except.error e =>
    if e == K8sErr.notFound then
      let newRec := createManagedFleetNotificationRecord mcID
      let tr1 := tr0 ++ [Event.createRecord newRec]
      match storeCreate store newRec env with
      | Except.error _ => (some ProcErr.createFailed, tr1, store)
      | Except.ok store1 => processAlertFrom fn mcID hcID newRec tr1 store1 env
    else (some ProcErr.fetchFailed, tr0, store)

/-- Inbound webhook payload: the top level status and the alert list. -/
structure AMReceiverData where
  dstatus : String
  alerts : List Alert
deriving DecidableEq, Repr

/-- Structured webhook response: error, status text and HTTP code. -/
structure AMReceiverResponse where
  rerror : Option String
  rstatus : String
  rcode : Nat
deriving DecidableEq, Repr

/-- Environment of one webhook request: the template source (get of a
ManagedFleetNotification by name, an error carrying a message), and a
fault environment for the alert at each position of the firing list. -/
structure BatchEnv where
  getMFN : String → Except String ManagedFleetNotification
  alertEnv : Nat → FaultEnv

/-- Loop body of processAMReceiver over the firing alerts (lines 76 to 102
of webhookrhobsreceiver.go): the template of each alert is fetched first
and a fetch failure terminates the batch with a 500 response naming the
template; an alert failing the validity filter is skipped; a processAlert
failure is logged and the loop continues.  An exhausted list yields the
ok response with code 200. -/
def processFiring : List Alert → Nat → Store → BatchEnv →
    AMReceiverResponse × List Event × Store
  | [], _, store, _ =>
    ({ rerror := none, rstatus := "ok", rcode := 200 }, [], store)
  | a :: rest, i, store, env =>
    match env.getMFN (goLookup a.labels AMLabelTemplateName) with
    | Except.error e =>
      ({ rerror := some e,
         rstatus := "unable to find ManagedFleetNotification " ++
           goLookup a.labels AMLabelTemplateName,
         rcode := 500 }, [], store)
    | Except.ok mfn =>
      if isValidAlert a then
        let r1 := processAlert a mfn store (env.alertEnv i)
        let r2 := processFiring rest (i + 1) r1.2.2 env
        (r2.1, r1.2.1 ++ r2.2.1, r2.2.2)
      else processFiring rest (i + 1) store env

/-- processAMReceiver of webhookrhobsreceiver.go: iterate over the firing
alerts of the payload (the Alertmanager Firing() filter keeps the alerts
whose status is the string firing). -/
def processAMReceiver (d : AMReceiverData) (store : Store) (env : BatchEnv) :
    AMReceiverResponse × List Event × Store :=
  processFiring (d.alerts.filter (fun a => a.astatus == "firing")) 0 store env

/-- Body of an HTTP response: either plain text (http.Error) or the JSON
encoded structured response. -/
inductive HTTPBody where
  | plainText (s : String)
  | jsonResponse (r : AMReceiverResponse)
deriving DecidableEq, Repr

/-- What ServeHTTP writes: status code, content type and body. -/
structure HTTPResult where
  code : Nat
  contentType : String
  body : HTTPBody
deriving DecidableEq, Repr

/-- An inbound HTTP request: its method, and the result of decoding its
body as AMReceiverData (none models a body the JSON decoder rejects). -/
structure HTTPRequest where
  method : String
  decodedBody : Option AMReceiverData
deriving DecidableEq, Repr

/-- ServeHTTP of webhookrhobsreceiver.go: a non POST method yields 405
with a plain text body; a body that fails to decode yields 400 with a
plain text body; otherwise the structured response of processAMReceiver is
written as JSON under its own code. -/
def ServeHTTP (r : HTTPRequest) (store : Store) (env : BatchEnv) :
    HTTPResult × Store :=
  if r.method != "POST" then
    ({ code := 405, contentType := "text/plain; charset=utf-8",
       body := HTTPBody.plainText "Method Not Allowed" }, store)
  else
    match r.decodedBody with
    | none =>
      ({ code := 400, contentType := "text/plain; charset=utf-8",
         body := HTTPBody.plainText "Bad request body" }, store)
    | some d =>
      let r1 := processAMReceiver d store env
      ({ code := r1.1.rcode, contentType := "application/json",
         body := HTTPBody.jsonResponse r1.1 }, r1.2.2)

/-- Recognizer of service log send events in a trace. -/
def isSendEvent : Event → Bool
  | Event.sendServiceLog _ _ _ _ _ _ _ _ => true
  | _ => false

/-- Recognizer of record create events in a trace. -/
def isCreateEvent : Event → Bool
  | Event.createRecord _ => true
  | _ => false

/-- Recognizer of status update events in a trace. -/
def isStatusUpdateEvent : Event → Bool
  | Event.statusUpdate _ => true
  | _ => false

/-- Recognizer of record fetch events in a trace. -/
def isGetEvent : Event → Bool
  | Event.getRecord _ => true
  | _ => false

/-- Sent counter carried by an optional item, zero when absent. -/
def optItemCount : Option NotificationRecordItem → Nat
  | none => 0
  | some it => it.serviceLogSentCount

/-- Sent counter for a (template name, hosted cluster) pair inside a per
template record list, zero when the record or item is absent, read along
the same first-match path the update uses. -/
def itemCount (l : List NotificationRecordByName) (name hcID : String) : Nat :=
  match findRBN l name with
  | none => 0
  | some rbn => optItemCount (findItem (itemsOf rbn) hcID)

/-- Sent counter for a (record name, template name, hosted cluster) triple
of the persisted store. -/
def storeCount (store : Store) (k name hcID : String) : Nat :=
  match store k with
  | none => 0
  | some r => itemCount (rbnList r) name hcID

/-- A record status is initialized when a missing management cluster id
implies the per template record list is empty; every record the handler
itself persists satisfies this. -/
def statusInitialized (r : ManagedFleetNotificationRecord) : Prop :=
  r.status.managementCluster = "" → rbnList r = []

/-- Boolean success test of an Except value. -/
def exceptIsOk {ε α : Type} : Except ε α → Bool
  | Except.ok _ => true
  | Except.error _ => false

/-- Sample fleet notification used by concrete witnesses. -/
def sampleFN : FleetNotification :=
  { name := "notif", summary := "sum", notificationMessage := "active",
    severity := "Info", logType := "lt", references := ["ref1"], resendWait := 60 }

/-- Sample template object wrapping the sample fleet notification. -/
def sampleMFN : ManagedFleetNotification := { spec := { fleetNotification := sampleFN } }

/-- Sample firing alert carrying all the labels the handler reads. -/
def sampleAlert : Alert :=
  { astatus := "firing",
    labels := [("alertname", "TestAlert"), ("managed_notification_template", "notif"),
               ("send_managed_notification", "true"), ("alert_mc_id", "mc1"),
               ("alert_hc_id", "hc1")] }

/-- A NotificationSent condition timestamped ts. -/
def sentCond (ts : Nat) : NotificationCondition :=
  { condType := NotificationConditionType.notificationSent, condStatus := true,
    lastTransitionTime := ts }

/-- Sample item for hosted cluster hc1 whose last send was at time 0. -/
def readyItem : NotificationRecordItem :=
  { hostedClusterID := "hc1", serviceLogSentCount := 2, conditions := [sentCond 0] }

/-- Sample per template record holding the sample item. -/
def readyRBN : NotificationRecordByName :=
  { notificationName := "notif", resendWait := 60, notificationRecordItems := some [readyItem] }

/-- Sample fleet record for management cluster mc1, ready for a resend. -/
def readyRecord : ManagedFleetNotificationRecord :=
  { name := "mc1",
    status := { managementCluster := "mc1", notificationRecordByName := some [readyRBN] } }

/-- The empty record store. -/
def emptyStore : Store := fun _ => none

/-- Store holding only the sample record. -/
def sampleStore : Store := storeSet emptyStore readyRecord

/-- Fault environment injecting no failures, at time 100. -/
def okFaultEnv : FaultEnv :=
  { getErr := none, createErr := none, initialUpdateErr := none, sendErr := none,
    updateErr := none, now := 100 }

/-- Batch environment resolving only the sample template name. -/
def sampleBatchEnv : BatchEnv :=
  { getMFN := fun n => if n == "notif" then Except.ok sampleMFN
      else Except.error "ManagedFleetNotification not found",
    alertEnv := fun _ => okFaultEnv }

/-- Fresh per template record as addNotificationRecordByName builds it: the
template name, the resend wait, and a nil item slice. -/
def freshRBN (name : String) (rswait : Nat) : NotificationRecordByName :=
  { notificationName := name, resendWait := rswait, notificationRecordItems := none }

/-- Sample firing alert whose template name resolves to nothing. -/
def missingTmplAlert : Alert :=
  { astatus := "firing",
    labels := [("alertname", "OtherAlert"), ("managed_notification_template", "missing"),
               ("send_managed_notification", "true"), ("alert_mc_id", "mc1"),
               ("alert_hc_id", "hc1")] }

/-- The sample alert in resolved state. -/
def resolvedAlert : Alert := { sampleAlert with astatus := "resolved" }

/-- Property of an event: if it is a service log send, then its resolved
description argument is empty and its isFiring argument is true. -/
def sendFiringEmptyResolved : Event → Prop
  | Event.sendServiceLog _ _ rdesc _ _ _ _ fir => rdesc = "" ∧ fir = true
  | _ => True

theorem processFiring_ok (env : BatchEnv) :
    ∀ (l : List Alert) (i : Nat) (store : Store),
      (∀ a ∈ l, exceptIsOk (env.getMFN (goLookup a.labels AMLabelTemplateName)) = true) →
      (processFiring l i store env).1 = { rerror := none, rstatus := "ok", rcode := 200 } := by
  intro l
  induction l with
  | nil => intro i store _; rfl
  | cons a rest ih =>
    intro i store h
    have ha := h a (List.mem_cons_self a rest)
    have hrest : ∀ b ∈ rest, exceptIsOk (env.getMFN (goLookup b.labels AMLabelTemplateName)) = true :=
      fun b hb => h b (List.mem_cons_of_mem a hb)
    cases hg : env.getMFN (goLookup a.labels AMLabelTemplateName) with
    | error e => rw [hg] at ha; simp [exceptIsOk] at ha
    | ok mfn =>
      cases hv : isValidAlert a with
      | true => simp only [processFiring, hg, hv, if_true]; exact ih (i + 1) _ hrest
      | false => simp only [processFiring, hg, hv, if_false]; exact ih (i + 1) store hrest

/-- C9: a non POST request yields 405 with a plain text body; a POST whose
body fails to decode yields 400 with a plain text body and an unchanged
store; a well formed POST whose firing alerts all resolve their templates
yields 200 with the JSON ok response whose error is null. -/
theorem serveHTTP_request_responses (r : HTTPRequest) (store : Store) (env : BatchEnv) :
    (r.method ≠ "POST" →
       ServeHTTP r store env =
         ({ code := 405, contentType := "text/plain; charset=utf-8",
            body := HTTPBody.plainText "Method Not Allowed" }, store))
  ∧ (r.method = "POST" → r.decodedBody = none →
       ServeHTTP r store env =
         ({ code := 400, contentType := "text/plain; charset=utf-8",
            body := HTTPBody.plainText "Bad request body" }, store))
  ∧ (∀ d, r.method = "POST" → r.decodedBody = some d →
       (∀ a ∈ d.alerts, a.astatus = "firing" →
          exceptIsOk (env.getMFN (goLookup a.labels AMLabelTemplateName)) = true) →
       (ServeHTTP r store env).1 =
         { code := 200, contentType := "application/json",
           body := HTTPBody.jsonResponse { rerror := none, rstatus := "ok", rcode := 200 } }) := by
  refine ⟨?_, ?_, ?_⟩
  · intro h
    simp [ServeHTTP, h]
  · intro h hb
    simp [ServeHTTP, h, hb]
  · intro d h hb hok
    have hfil : ∀ a ∈ d.alerts.filter (fun a => a.astatus == "firing"),
        exceptIsOk (env.getMFN (goLookup a.labels AMLabelTemplateName)) = true := by
      intro a ha
      have := List.mem_filter.mp ha
      exact hok a this.1 (by simpa using this.2)
    have hresp := processFiring_ok env (d.alerts.filter (fun a => a.astatus == "firing")) 0 store hfil
    simp [ServeHTTP, h, hb, processAMReceiver, hresp]

/-- C9 witness: the theorem applied to a concrete GET request. -/
theorem serveHTTP_request_responses_witness :
    ServeHTTP { method := "GET", decodedBody := none } emptyStore sampleBatchEnv =
      ({ code := 405, contentType := "text/plain; charset=utf-8",
         body := HTTPBody.plainText "Method Not Allowed" }, emptyStore) :=
  (serveHTTP_request_responses { method := "GET", decodedBody := none } emptyStore
    sampleBatchEnv).1 (by decide)

/-- C10: addNotificationRecordByName appends to the status a copy of the
fresh per template record whose item slice is still nil, while the value
it returns (the local variable the item was added to) carries the item for
the hosted cluster; the stored entry and the returned value are distinct. -/
theorem addNotificationRecordByName_aliasing (name : String) (rswait : Nat)
    (hcID : String) (mfrn : ManagedFleetNotificationRecord) :
    (addNotificationRecordByName name rswait hcID mfrn).2.status.notificationRecordByName
        = some (rbnList mfrn ++ [freshRBN name rswait])
  ∧ (addNotificationRecordByName name rswait hcID mfrn).1
        = { freshRBN name rswait with notificationRecordItems := some [newNotificationRecordItem hcID] }
  ∧ (addNotificationRecordByName name rswait hcID mfrn).1 ≠ freshRBN name rswait := by
  refine ⟨rfl, rfl, ?_⟩
  simp [addNotificationRecordByName, addNotificationRecordItem, freshRBN]

/-- C2 counterexample: on a two alert batch whose first firing alert names
a template the definitions source cannot resolve, the handler does not log
and continue: it aborts the whole batch with a 500 structured response and
processes no alert at all (empty trace), although processing the second
alert alone would have produced a send. -/
theorem processAMReceiver_template_abort_counterexample :
    (processAMReceiver { dstatus := "firing", alerts := [missingTmplAlert, sampleAlert] }
        sampleStore sampleBatchEnv).1.rcode = 500
  ∧ (processAMReceiver { dstatus := "firing", alerts := [missingTmplAlert, sampleAlert] }
        sampleStore sampleBatchEnv).1.rstatus ≠ "ok"
  ∧ (processAMReceiver { dstatus := "firing", alerts := [missingTmplAlert, sampleAlert] }
        sampleStore sampleBatchEnv).2.1 = []
  ∧ (processAMReceiver { dstatus := "firing", alerts := [sampleAlert] }
        sampleStore sampleBatchEnv).2.1.any isSendEvent = true := by
  refine ⟨by decide, by decide, by decide, by decide⟩

theorem processFiring_abort_at (env : BatchEnv) :
    ∀ (l1 : List Alert) (a : Alert) (l2 : List Alert) (e : String) (i : Nat) (store : Store),
      (∀ b ∈ l1, exceptIsOk (env.getMFN (goLookup b.labels AMLabelTemplateName)) = true) →
      env.getMFN (goLookup a.labels AMLabelTemplateName) = Except.error e →
      processFiring (l1 ++ a :: l2) i store env =
        ({ rerror := some e,
           rstatus := "unable to find ManagedFleetNotification " ++
             goLookup a.labels AMLabelTemplateName,
           rcode := 500 },
         (processFiring l1 i store env).2.1, (processFiring l1 i store env).2.2) := by
  intro l1
  induction l1 with
  | nil =>
    intro a l2 e i store _ he
    simp [processFiring, he]
  | cons b l1x ih =>
    intro a l2 e i store hpre he
    have hb := hpre b (List.mem_cons_self b l1x)
    have hrest : ∀ c ∈ l1x,
        exceptIsOk (env.getMFN (goLookup c.labels AMLabelTemplateName)) = true :=
      fun c hc => hpre c (List.mem_cons_of_mem b hc)
    cases hg : env.getMFN (goLookup b.labels AMLabelTemplateName) with
    | error e2 => rw [hg] at hb; simp [exceptIsOk] at hb
    | ok mfn =>
      cases hv : isValidAlert b with
      | true =>
        simp only [List.cons_append, List.append_eq, processFiring, hg, hv, if_true]
        rw [ih a l2 e (i + 1) _ hrest he]
      | false =>
        simp only [List.cons_append, List.append_eq, processFiring, hg, hv, if_false]
        exact ih a l2 e (i + 1) store hrest he

/-- C2 amended: when the template lookup of a firing alert of the batch
fails (and every firing alert before it resolves its template), the
handler does not log and continue: it aborts the batch at that alert.
The firing alerts before it are processed normally, their trace and their
store writes being exactly those of processing them alone; the failing
alert and every later alert contribute nothing; and the response is the
structured one with code 500 naming the failing template, not the 200 ok
response. -/
theorem processAMReceiver_template_not_found_aborts (d : AMReceiverData)
    (store : Store) (env : BatchEnv) (l1 l2 : List Alert) (a : Alert) (e : String)
    (hsplit : d.alerts.filter (fun x => x.astatus == "firing") = l1 ++ a :: l2)
    (hpre : ∀ b ∈ l1, exceptIsOk (env.getMFN (goLookup b.labels AMLabelTemplateName)) = true)
    (he : env.getMFN (goLookup a.labels AMLabelTemplateName) = Except.error e) :
    processAMReceiver d store env =
      ({ rerror := some e,
         rstatus := "unable to find ManagedFleetNotification " ++
           goLookup a.labels AMLabelTemplateName,
         rcode := 500 },
       (processFiring l1 0 store env).2.1,
       (processFiring l1 0 store env).2.2) := by
  unfold processAMReceiver
  rw [hsplit]
  exact processFiring_abort_at env l1 a l2 e 0 store hpre he

/-- C2 amended witness: the abort theorem on a two alert batch whose
second alert fails the lookup; the first alert is fully processed, its
send showing in the retained prefix trace. -/
theorem processAMReceiver_template_not_found_aborts_witness :
    processAMReceiver { dstatus := "firing", alerts := [sampleAlert, missingTmplAlert] }
        sampleStore sampleBatchEnv =
      ({ rerror := some "ManagedFleetNotification not found",
         rstatus := "unable to find ManagedFleetNotification " ++
           goLookup missingTmplAlert.labels AMLabelTemplateName,
         rcode := 500 },
       (processFiring [sampleAlert] 0 sampleStore sampleBatchEnv).2.1,
       (processFiring [sampleAlert] 0 sampleStore sampleBatchEnv).2.2) :=
  processAMReceiver_template_not_found_aborts
    { dstatus := "firing", alerts := [sampleAlert, missingTmplAlert] } sampleStore
    sampleBatchEnv [sampleAlert] [] missingTmplAlert "ManagedFleetNotification not found"
    (by decide) (by decide) rfl

theorem processAlertMain_sends_firing (fn : FleetNotification) (mcID hcID : String)
    (mfnr : ManagedFleetNotificationRecord) (tr : List Event) (store : Store)
    (env : FaultEnv) (htr : ∀ e ∈ tr, sendFiringEmptyResolved e) :
    ∀ e ∈ (processAlertMain fn mcID hcID mfnr tr store env).2.1, sendFiringEmptyResolved e := by
  intro e he
  simp only [processAlertMain] at he
  split at he
  · exact htr e he
  · exact htr e he
  · split at he
    · rcases List.mem_append.mp he with h | h
      · exact htr e h
      · simp only [List.mem_singleton] at h
        subst h; simp [sendFiringEmptyResolved, sendEventFor]
    · split at he
      · rcases List.mem_append.mp he with h | h
        · exact htr e h
        · simp only [List.mem_singleton] at h
          subst h; simp [sendFiringEmptyResolved, sendEventFor]
      · split at he
        all_goals
          rcases List.mem_append.mp he with h | h
          · rcases List.mem_append.mp h with h2 | h2
            · exact htr e h2
            · simp only [List.mem_singleton] at h2
              subst h2; simp [sendFiringEmptyResolved, sendEventFor]
          · simp only [List.mem_singleton] at h
            subst h; simp [sendFiringEmptyResolved]

theorem processAlertFrom_sends_firing (fn : FleetNotification) (mcID hcID : String)
    (mfnr : ManagedFleetNotificationRecord) (tr : List Event) (store : Store)
    (env : FaultEnv) (htr : ∀ e ∈ tr, sendFiringEmptyResolved e) :
    ∀ e ∈ (processAlertFrom fn mcID hcID mfnr tr store env).2.1, sendFiringEmptyResolved e := by
  have htr1 : ∀ e ∈ tr ++ [Event.statusUpdate (setInitialStatus mcID mfnr)],
      sendFiringEmptyResolved e := by
    intro e he
    rcases List.mem_append.mp he with h | h
    · exact htr e h
    · simp only [List.mem_singleton] at h
      subst h; simp [sendFiringEmptyResolved]
  intro e he
  simp only [processAlertFrom] at he
  split at he
  · split at he
    · exact htr1 e he
    · exact processAlertMain_sends_firing fn mcID hcID _ _ _ env htr1 e he
  · exact processAlertMain_sends_firing fn mcID hcID _ _ _ env htr e he

theorem processAlert_sends_firing (alert : Alert) (mfn : ManagedFleetNotification)
    (store : Store) (env : FaultEnv) :
    ∀ e ∈ (processAlert alert mfn store env).2.1, sendFiringEmptyResolved e := by
  intro e he
  simp only [processAlert] at he
  have h0 : ∀ x ∈ [Event.getRecord (mcIdOf alert)], sendFiringEmptyResolved x := by
    intro x hx
    simp only [List.mem_singleton] at hx
    subst hx; simp [sendFiringEmptyResolved]
  have h1 : ∀ x ∈ [Event.getRecord (mcIdOf alert),
      Event.createRecord (createManagedFleetNotificationRecord (mcIdOf alert))],
      sendFiringEmptyResolved x := by
    intro x hx
    simp only [List.mem_cons, List.mem_singleton, List.not_mem_nil, or_false] at hx
    rcases hx with hx | hx <;> (subst hx; simp [sendFiringEmptyResolved])
  split at he
  · exact processAlertFrom_sends_firing _ _ _ _ _ _ env h0 e he
  · split at he
    · split at he
      · exact h1 e (by simpa using he)
      · exact processAlertFrom_sends_firing _ _ _ _ _ _ env (by simpa using h1) e he
    · exact h0 e he

theorem processFiring_sends_firing (env : BatchEnv) :
    ∀ (l : List Alert) (i : Nat) (store : Store),
      ∀ e ∈ (processFiring l i store env).2.1, sendFiringEmptyResolved e := by
  intro l
  induction l with
  | nil => intro i store e he; simp [processFiring] at he
  | cons a rest ih =>
    intro i store e he
    simp only [processFiring] at he
    split at he
    · simp at he
    · split at he
      · rcases List.mem_append.mp he with h | h
        · exact processAlert_sends_firing a _ store (env.alertEnv i) e h
        · exact ih (i + 1) _ e h
      · exact ih (i + 1) store e he

/-- C3 amended: the orchestrator hands only the firing alerts of the batch
to processAlert (the resolved ones are dropped by the upstream filter), and
every service log send it performs carries an empty resolved description
and isFiring equal to true; no send with isFiring false ever occurs. -/
theorem processAMReceiver_sends_only_firing (d : AMReceiverData) (store : Store)
    (env : BatchEnv) :
    processAMReceiver d store env
        = processFiring (d.alerts.filter (fun a => a.astatus == "firing")) 0 store env
  ∧ ∀ e ∈ (processAMReceiver d store env).2.1, sendFiringEmptyResolved e := by
  refine ⟨rfl, ?_⟩
  intro e he
  exact processFiring_sends_firing env _ 0 store e he

/-- C3 amended witness: the send event of a concrete one alert batch
satisfies the firing only property. -/
theorem processAMReceiver_sends_only_firing_witness :
    sendFiringEmptyResolved (sendEventFor sampleFN "hc1") :=
  (processAMReceiver_sends_only_firing { dstatus := "firing", alerts := [sampleAlert] }
    sampleStore sampleBatchEnv).2 (sendEventFor sampleFN "hc1") (by decide)

/-- C3 counterexample: a batch holding one resolved alert, against a store
and policy state that would allow a send, produces no external call at all:
the resolved alert is never processed and no send with isFiring false is
invoked, contradicting the claim that resolved alerts lead to sends. -/
theorem processAMReceiver_resolved_dropped_counterexample :
    (processAMReceiver { dstatus := "resolved", alerts := [resolvedAlert] }
        sampleStore sampleBatchEnv).2.1 = []
  ∧ (processAMReceiver { dstatus := "resolved", alerts := [resolvedAlert] }
        sampleStore sampleBatchEnv).1 = { rerror := none, rstatus := "ok", rcode := 200 }
  ∧ (processAMReceiver { dstatus := "firing", alerts := [sampleAlert] }
        sampleStore sampleBatchEnv).2.1.any isSendEvent = true := by
  refine ⟨by decide, by decide, by decide⟩

theorem locateRecord_found (fn : FleetNotification) (mcID hcID : String)
    (mfnr : ManagedFleetNotificationRecord) (rbn : NotificationRecordByName)
    (item : NotificationRecordItem)
    (hrbn : getNotificationRecordByName mfnr mcID fn.name = some rbn)
    (hitem : getNotificationRecordItem mfnr mcID fn.name hcID = some item) :
    locateRecord fn mcID hcID mfnr = mfnr := by
  simp [locateRecord, hrbn, hitem]

theorem locateRecord_no_rbn (fn : FleetNotification) (mcID hcID : String)
    (mfnr : ManagedFleetNotificationRecord)
    (h : getNotificationRecordByName mfnr mcID fn.name = none) :
    locateRecord fn mcID hcID mfnr =
      (addNotificationRecordByName fn.name fn.resendWait hcID mfnr).2 := by
  simp [locateRecord, h]

/-- C1: for a firing alert whose record already holds a NotificationSent
condition, processAlert performs no send, no write and returns no error
while the condition is younger than the resend wait, and proceeds to the
send as soon as the condition timestamp plus the resend wait has been
reached. -/
theorem processAlert_resend_window (alert : Alert) (mfn : ManagedFleetNotification)
    (store : Store) (env : FaultEnv) (rec : ManagedFleetNotificationRecord)
    (rbn : NotificationRecordByName) (item : NotificationRecordItem)
    (c : NotificationCondition)
    (hget : env.getErr = none)
    (hstore : store (mcIdOf alert) = some rec)
    (hmc : mcIdOf alert ≠ "")
    (hrbn : getNotificationRecordByName rec (mcIdOf alert)
        mfn.spec.fleetNotification.name = some rbn)
    (hitem : findItem (itemsOf rbn) (hcIdOf alert) = some item)
    (hcond : getCondition item.conditions
        NotificationConditionType.notificationSent = some c) :
    (env.now < c.lastTransitionTime + rbn.resendWait →
        processAlert alert mfn store env = (none, [Event.getRecord (mcIdOf alert)], store))
  ∧ (c.lastTransitionTime + rbn.resendWait ≤ env.now →
        (processAlert alert mfn store env).2.1.any isSendEvent = true) := by
  have hmceq : rec.status.managementCluster = mcIdOf alert := by
    unfold getNotificationRecordByName at hrbn
    split at hrbn
    · next hbeq => exact eq_of_beq hbeq
    · exact absurd hrbn (by simp)
  have hmcne : (rec.status.managementCluster == "") = false := by
    rw [hmceq]
    exact beq_eq_false_iff_ne.mpr hmc
  have hgetrec : storeGet store (mcIdOf alert) env = Except.ok rec := by
    simp [storeGet, hget, hstore]
  have hgni : getNotificationRecordItem rec (mcIdOf alert)
      mfn.spec.fleetNotification.name (hcIdOf alert) = some item := by
    simp [getNotificationRecordItem, hrbn, hitem]
  have hcbs : canBeSent rec (mcIdOf alert) mfn.spec.fleetNotification.name
      (hcIdOf alert) env.now
      = some (decide (c.lastTransitionTime + rbn.resendWait ≤ env.now)) := by
    simp [canBeSent, hrbn, hitem, hcond]
  have hloc : locateRecord mfn.spec.fleetNotification (mcIdOf alert) (hcIdOf alert) rec
      = rec := locateRecord_found _ _ _ _ _ _ hrbn hgni
  constructor
  · intro hlt
    have hdec : decide (c.lastTransitionTime + rbn.resendWait ≤ env.now) = false :=
      decide_eq_false (by omega)
    simp [processAlert, hgetrec, processAlertFrom, hmcne, processAlertMain, hloc,
      hcbs, hdec]
  · intro hle
    have hdec : decide (c.lastTransitionTime + rbn.resendWait ≤ env.now) = true :=
      decide_eq_true hle
    simp only [processAlert, hgetrec, processAlertFrom, hmcne, Bool.false_eq_true,
      if_false, processAlertMain, hloc, hcbs, hdec]
    split
    · simp [isSendEvent, sendEventFor]
    · split
      · simp [isSendEvent, sendEventFor]
      · split <;> simp [isSendEvent, sendEventFor]

/-- C1 witness: the resend side of the theorem at the sample scenario
whose last send lies a full resend window in the past. -/
theorem processAlert_resend_window_witness :
    (processAlert sampleAlert sampleMFN sampleStore okFaultEnv).2.1.any isSendEvent = true :=
  (processAlert_resend_window sampleAlert sampleMFN sampleStore okFaultEnv readyRecord
      readyRBN readyItem (sentCond 0) rfl (by decide) (by decide) (by decide) (by decide)
      (by decide)).2 (by decide)

theorem findRBN_append_singleton (l : List NotificationRecordByName)
    (r : NotificationRecordByName) (n : String) (h : findRBN l n = none) :
    findRBN (l ++ [r]) n = if r.notificationName == n then some r else none := by
  induction l with
  | nil => rfl
  | cons a as ih =>
    simp only [List.cons_append, findRBN] at h ⊢
    split at h
    · exact absurd h (by simp)
    · next hne =>
      rw [if_neg hne]
      exact ih h

theorem getRBN_empty (mfnr : ManagedFleetNotificationRecord) (mcID n : String)
    (h : rbnList mfnr = []) : getNotificationRecordByName mfnr mcID n = none := by
  unfold getNotificationRecordByName
  rw [h]
  simp [findRBN]

theorem processAlertMain_no_rbn (fn : FleetNotification) (mcID hcID : String)
    (mfnr : ManagedFleetNotificationRecord) (tr : List Event) (store : Store)
    (env : FaultEnv) (h : getNotificationRecordByName mfnr mcID fn.name = none) :
    processAlertMain fn mcID hcID mfnr tr store env =
      (some ProcErr.canBeSentFailed, tr, store) := by
  have hm2mc : (addNotificationRecordByName fn.name fn.resendWait hcID mfnr).2.status.managementCluster
      = mfnr.status.managementCluster := rfl
  have hm2l : rbnList (addNotificationRecordByName fn.name fn.resendWait hcID mfnr).2
      = rbnList mfnr ++ [freshRBN fn.name fn.resendWait] := rfl
  by_cases hmc : (mfnr.status.managementCluster == mcID) = true
  · have hfind : findRBN (rbnList mfnr) fn.name = none := by
      unfold getNotificationRecordByName at h
      rwa [if_pos hmc] at h
    have hcbs : canBeSent (addNotificationRecordByName fn.name fn.resendWait hcID mfnr).2
        mcID fn.name hcID env.now = none := by
      unfold canBeSent getNotificationRecordByName
      rw [hm2mc, if_pos hmc, hm2l, findRBN_append_singleton _ _ _ hfind]
      simp [freshRBN, itemsOf, findItem]
    simp [processAlertMain, locateRecord_no_rbn fn mcID hcID mfnr h, hcbs]
  · have hcbs : canBeSent (addNotificationRecordByName fn.name fn.resendWait hcID mfnr).2
        mcID fn.name hcID env.now = none := by
      unfold canBeSent getNotificationRecordByName
      rw [hm2mc, if_neg hmc]
    simp [processAlertMain, locateRecord_no_rbn fn mcID hcID mfnr h, hcbs]

theorem processAlertMain_trace_append (fn : FleetNotification) (mcID hcID : String)
    (mfnr : ManagedFleetNotificationRecord) (tr : List Event) (store : Store)
    (env : FaultEnv) :
    ∃ s, (processAlertMain fn mcID hcID mfnr tr store env).2.1 = tr ++ s
      ∧ s.any isCreateEvent = false := by
  simp only [processAlertMain]
  split
  · exact ⟨[], by simp⟩
  · exact ⟨[], by simp⟩
  · split
    · exact ⟨[sendEventFor fn hcID], by simp [isCreateEvent, sendEventFor]⟩
    · split
      · exact ⟨[sendEventFor fn hcID], by simp [isCreateEvent, sendEventFor]⟩
      · next m3 _ =>
        split <;>
          exact ⟨[sendEventFor fn hcID, Event.statusUpdate m3],
            by simp [isCreateEvent, sendEventFor]⟩

theorem processAlertFrom_trace_append (fn : FleetNotification) (mcID hcID : String)
    (mfnr : ManagedFleetNotificationRecord) (tr : List Event) (store : Store)
    (env : FaultEnv) :
    ∃ s, (processAlertFrom fn mcID hcID mfnr tr store env).2.1 = tr ++ s
      ∧ s.any isCreateEvent = false := by
  simp only [processAlertFrom]
  split
  · split
    · exact ⟨[Event.statusUpdate (setInitialStatus mcID mfnr)], by simp [isCreateEvent]⟩
    · obtain ⟨s, hs, hc⟩ := processAlertMain_trace_append fn mcID hcID
        (setInitialStatus mcID mfnr) (tr ++ [Event.statusUpdate (setInitialStatus mcID mfnr)])
        (storeSet store (setInitialStatus mcID mfnr)) env
      refine ⟨[Event.statusUpdate (setInitialStatus mcID mfnr)] ++ s, ?_, ?_⟩
      · rw [hs, List.append_assoc]
      · simp [isCreateEvent, hc]
  · exact processAlertMain_trace_append fn mcID hcID mfnr tr store env

/-- C7: a record absent from the store is created (with a status already
initialized to the management cluster id and an empty record list) and
persisted before anything beyond the fetch happens, while a present record
is reused: no create call occurs at all in that case. -/
theorem processAlert_creates_or_reuses (alert : Alert) (mfn : ManagedFleetNotification)
    (store : Store) (env : FaultEnv) (hget : env.getErr = none) :
    (store (mcIdOf alert) = none → env.createErr = none → mcIdOf alert ≠ "" →
        processAlert alert mfn store env =
          (some ProcErr.canBeSentFailed,
           [Event.getRecord (mcIdOf alert),
            Event.createRecord (createManagedFleetNotificationRecord (mcIdOf alert))],
           storeSet store (createManagedFleetNotificationRecord (mcIdOf alert))))
  ∧ (∀ rec, store (mcIdOf alert) = some rec →
        ((processAlert alert mfn store env).2.1.any isCreateEvent) = false) := by
  constructor
  · intro hnone hcreate hne
    have hbeq : (mcIdOf alert == "") = false := beq_eq_false_iff_ne.mpr hne
    have hmcC : (createManagedFleetNotificationRecord (mcIdOf alert)).status.managementCluster
        = mcIdOf alert := rfl
    have hnameC : (createManagedFleetNotificationRecord (mcIdOf alert)).name
        = mcIdOf alert := rfl
    have hmain := processAlertMain_no_rbn mfn.spec.fleetNotification (mcIdOf alert)
      (hcIdOf alert) (createManagedFleetNotificationRecord (mcIdOf alert))
      [Event.getRecord (mcIdOf alert),
       Event.createRecord (createManagedFleetNotificationRecord (mcIdOf alert))]
      (storeSet store (createManagedFleetNotificationRecord (mcIdOf alert))) env
      (getRBN_empty _ _ _ rfl)
    simp [processAlert, storeGet, hget, hnone, storeCreate, hnameC, hcreate,
      processAlertFrom, hmcC, hbeq, hmain]
  · intro rec hrec
    have hpa : processAlert alert mfn store env =
        processAlertFrom mfn.spec.fleetNotification (mcIdOf alert) (hcIdOf alert) rec
          [Event.getRecord (mcIdOf alert)] store env := by
      simp [processAlert, storeGet, hget, hrec]
    obtain ⟨s, hs, hc⟩ := processAlertFrom_trace_append mfn.spec.fleetNotification
      (mcIdOf alert) (hcIdOf alert) rec [Event.getRecord (mcIdOf alert)] store env
    rw [hpa, hs]
    simp [isCreateEvent, hc]

/-- C7 witness: the creation side at the empty store. -/
theorem processAlert_creates_or_reuses_witness :
    processAlert sampleAlert sampleMFN emptyStore okFaultEnv =
      (some ProcErr.canBeSentFailed,
       [Event.getRecord (mcIdOf sampleAlert),
        Event.createRecord (createManagedFleetNotificationRecord (mcIdOf sampleAlert))],
       storeSet emptyStore (createManagedFleetNotificationRecord (mcIdOf sampleAlert))) :=
  (processAlert_creates_or_reuses sampleAlert sampleMFN emptyStore okFaultEnv rfl).1
    rfl rfl (by decide)

theorem processAlertMain_send_chars (fn : FleetNotification) (mcID hcID : String)
    (mfnr : ManagedFleetNotificationRecord) (tr : List Event) (store : Store)
    (env : FaultEnv) (htr : tr.any isSendEvent = false)
    (hany : (processAlertMain fn mcID hcID mfnr tr store env).2.1.any isSendEvent = true) :
    canBeSent (locateRecord fn mcID hcID mfnr) mcID fn.name hcID env.now = some true := by
  rcases hc : canBeSent (locateRecord fn mcID hcID mfnr) mcID fn.name hcID env.now with _ | b
  · simp only [processAlertMain, hc] at hany
    simp [htr] at hany
  · cases b
    · simp only [processAlertMain, hc] at hany
      simp [htr] at hany
    · rfl

theorem updateItem_of_canBeSent (m2 : ManagedFleetNotificationRecord)
    (mcID name hcID : String) (now : Nat)
    (hc : canBeSent m2 mcID name hcID now = some true) :
    ∃ m3, updateNotificationRecordItem m2 name hcID now = some m3 := by
  unfold canBeSent at hc
  rcases hg : getNotificationRecordByName m2 mcID name with _ | rbn
  · simp only [hg] at hc
    exact absurd hc (by simp)
  · simp only [hg] at hc
    rcases hi : findItem (itemsOf rbn) hcID with _ | it
    · simp only [hi] at hc
      exact absurd hc (by simp)
    · have hfind : findRBN (rbnList m2) name = some rbn := by
        unfold getNotificationRecordByName at hg
        split at hg
        · exact hg
        · exact absurd hg (by simp)
      unfold updateNotificationRecordItem
      simp only [hfind, hi]
      exact ⟨_, rfl⟩

theorem processAlertMain_sendfail (fn : FleetNotification) (mcID hcID : String)
    (mfnr : ManagedFleetNotificationRecord) (tr : List Event) (store : Store)
    (env : FaultEnv) (s : String)
    (hc : canBeSent (locateRecord fn mcID hcID mfnr) mcID fn.name hcID env.now = some true)
    (hs : env.sendErr = some s) :
    processAlertMain fn mcID hcID mfnr tr store env =
      (some ProcErr.sendFailed, tr ++ [sendEventFor fn hcID], store) := by
  simp [processAlertMain, hc, hs]

theorem processAlertMain_updfail (fn : FleetNotification) (mcID hcID : String)
    (mfnr : ManagedFleetNotificationRecord) (tr : List Event) (store : Store)
    (env : FaultEnv) (e : K8sErr)
    (hc : canBeSent (locateRecord fn mcID hcID mfnr) mcID fn.name hcID env.now = some true)
    (hsend : env.sendErr = none) (hupd : env.updateErr = some e) :
    ∃ m3, updateNotificationRecordItem (locateRecord fn mcID hcID mfnr) fn.name hcID env.now
        = some m3
      ∧ processAlertMain fn mcID hcID mfnr tr store env =
          (some ProcErr.statusUpdateFailed,
           tr ++ [sendEventFor fn hcID, Event.statusUpdate m3], store) := by
  obtain ⟨m3, hm3⟩ := updateItem_of_canBeSent _ _ _ _ _ hc
  exact ⟨m3, hm3, by simp [processAlertMain, hc, hsend, hm3, hupd]⟩

theorem processAlertFrom_no_send_of_empty (fn : FleetNotification) (mcID hcID : String)
    (mfnr : ManagedFleetNotificationRecord) (tr : List Event) (store : Store)
    (env : FaultEnv)
    (hcase : (mfnr.status.managementCluster == "") = true ∨ rbnList mfnr = [])
    (htr : tr.any isSendEvent = false) :
    ((processAlertFrom fn mcID hcID mfnr tr store env).2.1.any isSendEvent) = false := by
  unfold processAlertFrom
  split
  · split
    · simp [htr, isSendEvent]
    · rw [processAlertMain_no_rbn fn mcID hcID (setInitialStatus mcID mfnr) _ _ _
        (getRBN_empty (setInitialStatus mcID mfnr) mcID fn.name rfl)]
      simp [htr, isSendEvent]
  · next hne =>
    have hempty : rbnList mfnr = [] := by
      rcases hcase with hcase | hcase
      · exact absurd hcase hne
      · exact hcase
    rw [processAlertMain_no_rbn _ _ _ _ _ _ _ (getRBN_empty _ _ _ hempty)]
    simpa using htr

theorem processAlert_send_cases (alert : Alert) (mfn : ManagedFleetNotification)
    (store : Store) (env : FaultEnv)
    (hany : (processAlert alert mfn store env).2.1.any isSendEvent = true) :
    ∃ rec, storeGet store (mcIdOf alert) env = Except.ok rec
      ∧ (rec.status.managementCluster == "") = false
      ∧ canBeSent (locateRecord mfn.spec.fleetNotification (mcIdOf alert) (hcIdOf alert) rec)
          (mcIdOf alert) mfn.spec.fleetNotification.name (hcIdOf alert) env.now = some true
      ∧ processAlert alert mfn store env =
          processAlertMain mfn.spec.fleetNotification (mcIdOf alert) (hcIdOf alert) rec
            [Event.getRecord (mcIdOf alert)] store env := by
  rcases hg : storeGet store (mcIdOf alert) env with e | rec
  · by_cases hnf : (e == K8sErr.notFound) = true
    · rcases hcr : storeCreate store (createManagedFleetNotificationRecord (mcIdOf alert)) env
        with e2 | store1
      · simp only [processAlert, hg, hnf, if_true, hcr] at hany
        simp [isSendEvent] at hany
      · simp only [processAlert, hg, hnf, if_true, hcr, List.cons_append,
          List.nil_append, List.append_nil] at hany
        have := processAlertFrom_no_send_of_empty mfn.spec.fleetNotification (mcIdOf alert)
          (hcIdOf alert) (createManagedFleetNotificationRecord (mcIdOf alert))
          [Event.getRecord (mcIdOf alert),
           Event.createRecord (createManagedFleetNotificationRecord (mcIdOf alert))]
          store1 env (Or.inr rfl) (by simp [isSendEvent])
        exact absurd hany (by simp [this])
    · simp only [processAlert, hg] at hany
      rw [if_neg hnf] at hany
      simp [isSendEvent] at hany
  · by_cases hmc : (rec.status.managementCluster == "") = true
    · simp only [processAlert, hg] at hany
      have := processAlertFrom_no_send_of_empty mfn.spec.fleetNotification (mcIdOf alert)
        (hcIdOf alert) rec [Event.getRecord (mcIdOf alert)] store env (Or.inl hmc)
        (by simp [isSendEvent])
      exact absurd hany (by simp [this])
    · have hpa : processAlert alert mfn store env =
          processAlertMain mfn.spec.fleetNotification (mcIdOf alert) (hcIdOf alert) rec
            [Event.getRecord (mcIdOf alert)] store env := by
        simp only [processAlert, hg, processAlertFrom]
        rw [if_neg hmc]
      rw [hpa] at hany
      exact ⟨rec, rfl, by simpa using hmc, processAlertMain_send_chars _ _ _ _ _ _ env
        (by simp [isSendEvent]) hany, hpa⟩

/-- C4: when the external send collaborator fails, processAlert surfaces a
non nil error, the only external calls of the whole run are the record
fetch and the failed send (so neither the condition ledger nor the record
is updated and no status write occurs, the store being returned exactly as
it was), and the batch loop goes on to the next alert: the batch response
is the one computed from the remaining alerts. -/
theorem processAlert_send_error_surfaced (alert : Alert) (mfn : ManagedFleetNotification)
    (store : Store) (env : FaultEnv) (s : String)
    (hs : env.sendErr = some s)
    (hany : (processAlert alert mfn store env).2.1.any isSendEvent = true) :
    processAlert alert mfn store env =
      (some ProcErr.sendFailed,
       [Event.getRecord (mcIdOf alert), sendEventFor mfn.spec.fleetNotification (hcIdOf alert)],
       store)
  ∧ ∀ (benv : BatchEnv) (ds : String) (rest : List Alert),
      alert.astatus = "firing" → isValidAlert alert = true →
      benv.getMFN (goLookup alert.labels AMLabelTemplateName) = Except.ok mfn →
      benv.alertEnv 0 = env →
      processAMReceiver { dstatus := ds, alerts := alert :: rest } store benv =
        ((processFiring (rest.filter (fun a => a.astatus == "firing")) 1
            (processAlert alert mfn store env).2.2 benv).1,
         (processAlert alert mfn store env).2.1 ++
           (processFiring (rest.filter (fun a => a.astatus == "firing")) 1
             (processAlert alert mfn store env).2.2 benv).2.1,
         (processFiring (rest.filter (fun a => a.astatus == "firing")) 1
           (processAlert alert mfn store env).2.2 benv).2.2) := by
  constructor
  · obtain ⟨rec, hg, hmc, hc, heq⟩ := processAlert_send_cases alert mfn store env hany
    rw [heq]
    rw [processAlertMain_sendfail mfn.spec.fleetNotification (mcIdOf alert) (hcIdOf alert)
      rec [Event.getRecord (mcIdOf alert)] store env s hc hs]
    rfl
  · intro benv ds rest hfir hvalid hmfn henv
    simp only [processAMReceiver, List.filter_cons, hfir]
    simp [processFiring, hmfn, hvalid, henv]

/-- C4 witness: the theorem at the ready to send sample with an injected
send failure. -/
theorem processAlert_send_error_surfaced_witness :
    processAlert sampleAlert sampleMFN sampleStore { okFaultEnv with sendErr := some "boom" } =
      (some ProcErr.sendFailed,
       [Event.getRecord (mcIdOf sampleAlert),
        sendEventFor sampleMFN.spec.fleetNotification (hcIdOf sampleAlert)],
       sampleStore) :=
  (processAlert_send_error_surfaced sampleAlert sampleMFN sampleStore
    { okFaultEnv with sendErr := some "boom" } "boom" rfl (by decide)).1

/-- C6: when the send has succeeded and the final status persistence
fails, processAlert surfaces a non nil error, the send is not re-invoked
within the call (exactly one send event in the trace) and the store keeps
its pre call content. -/
theorem processAlert_persist_failure_surfaced (alert : Alert)
    (mfn : ManagedFleetNotification) (store : Store) (env : FaultEnv) (e : K8sErr)
    (hsend : env.sendErr = none) (hupd : env.updateErr = some e)
    (hany : (processAlert alert mfn store env).2.1.any isSendEvent = true) :
    (processAlert alert mfn store env).1 = some ProcErr.statusUpdateFailed
  ∧ (processAlert alert mfn store env).2.1.countP isSendEvent = 1
  ∧ (processAlert alert mfn store env).2.2 = store := by
  obtain ⟨rec, hg, hmc, hc, heq⟩ := processAlert_send_cases alert mfn store env hany
  obtain ⟨m3, hm3, hmain⟩ := processAlertMain_updfail mfn.spec.fleetNotification
    (mcIdOf alert) (hcIdOf alert) rec [Event.getRecord (mcIdOf alert)] store env e
    hc hsend hupd
  rw [heq, hmain]
  refine ⟨rfl, ?_, rfl⟩
  simp [List.countP_cons, isSendEvent, sendEventFor]

/-- C6 witness: the theorem at the sample with an injected failure of the
final status update. -/
theorem processAlert_persist_failure_surfaced_witness :
    (processAlert sampleAlert sampleMFN sampleStore
        { okFaultEnv with updateErr := some K8sErr.internalErr }).1
      = some ProcErr.statusUpdateFailed
  ∧ (processAlert sampleAlert sampleMFN sampleStore
        { okFaultEnv with updateErr := some K8sErr.internalErr }).2.1.countP isSendEvent = 1
  ∧ (processAlert sampleAlert sampleMFN sampleStore
        { okFaultEnv with updateErr := some K8sErr.internalErr }).2.2 = sampleStore :=
  processAlert_persist_failure_surfaced sampleAlert sampleMFN sampleStore
    { okFaultEnv with updateErr := some K8sErr.internalErr } K8sErr.internalErr
    rfl rfl (by decide)

/-- C8 counterexample: at a concrete ready to send input whose final status
update fails with a version conflict, processAlert performs exactly one
record fetch and exactly one status update attempt and returns the error:
there is no re-fetch and no re-application of the mutation, contrary to
the claim. -/
theorem processAlert_conflict_no_retry_counterexample :
    (processAlert sampleAlert sampleMFN sampleStore
        { okFaultEnv with updateErr := some K8sErr.conflict }).1
      = some ProcErr.statusUpdateFailed
  ∧ (processAlert sampleAlert sampleMFN sampleStore
        { okFaultEnv with updateErr := some K8sErr.conflict }).2.1.countP isGetEvent = 1
  ∧ (processAlert sampleAlert sampleMFN sampleStore
        { okFaultEnv with updateErr := some K8sErr.conflict }).2.1.countP
      isStatusUpdateEvent = 1 := by
  refine ⟨by decide, by decide, by decide⟩

/-- C8 amended: a version conflict of the status update is surfaced
immediately as a terminal error of processAlert: the run holds exactly one
fetch and one status update attempt (zero retries, no re-fetch, no
unbounded loop) and the store is left unchanged. -/
theorem processAlert_conflict_terminal (alert : Alert) (mfn : ManagedFleetNotification)
    (store : Store) (env : FaultEnv)
    (hsend : env.sendErr = none) (hupd : env.updateErr = some K8sErr.conflict)
    (hany : (processAlert alert mfn store env).2.1.any isSendEvent = true) :
    (processAlert alert mfn store env).1 = some ProcErr.statusUpdateFailed
  ∧ (processAlert alert mfn store env).2.1.countP isGetEvent = 1
  ∧ (processAlert alert mfn store env).2.1.countP isStatusUpdateEvent = 1
  ∧ (processAlert alert mfn store env).2.2 = store := by
  obtain ⟨rec, hg, hmc, hc, heq⟩ := processAlert_send_cases alert mfn store env hany
  obtain ⟨m3, hm3, hmain⟩ := processAlertMain_updfail mfn.spec.fleetNotification
    (mcIdOf alert) (hcIdOf alert) rec [Event.getRecord (mcIdOf alert)] store env
    K8sErr.conflict hc hsend hupd
  rw [heq, hmain]
  refine ⟨rfl, ?_, ?_, rfl⟩
  · simp [List.countP_cons, isGetEvent, sendEventFor, isSendEvent]
  · simp [List.countP_cons, isStatusUpdateEvent, sendEventFor]

/-- C8 amended witness: the terminal conflict theorem at the sample. -/
theorem processAlert_conflict_terminal_witness :
    (processAlert sampleAlert sampleMFN sampleStore
        { okFaultEnv with updateErr := some K8sErr.conflict }).2.2 = sampleStore :=
  (processAlert_conflict_terminal sampleAlert sampleMFN sampleStore
    { okFaultEnv with updateErr := some K8sErr.conflict } rfl rfl (by decide)).2.2.2

theorem optItemCount_mapFirstItem_update (its : List NotificationRecordItem)
    (hcU hcQ : String) (now : Nat) :
    optItemCount (findItem its hcQ) ≤
      optItemCount (findItem (mapFirstItem its hcU (updateItem now)) hcQ) := by
  induction its with
  | nil => simp [mapFirstItem]
  | cons a as ih =>
    cases hu : a.hostedClusterID == hcU <;> cases hq : a.hostedClusterID == hcQ
    · simpa [findItem, mapFirstItem, hu, List.find?_cons, hq] using ih
    · simp [findItem, mapFirstItem, hu, List.find?_cons, hq]
    · simp [findItem, mapFirstItem, hu, List.find?_cons, hq, updateItem]
    · simp [findItem, mapFirstItem, hu, List.find?_cons, hq, updateItem, optItemCount]

theorem optItemCount_append_new (its : List NotificationRecordItem) (hcU hcQ : String) :
    optItemCount (findItem (its ++ [newNotificationRecordItem hcU]) hcQ) =
      optItemCount (findItem its hcQ) := by
  induction its with
  | nil =>
    cases hq : hcU == hcQ <;>
      simp [findItem, List.find?_cons, newNotificationRecordItem, hq, optItemCount]
  | cons a as ih =>
    cases hq : a.hostedClusterID == hcQ
    · simpa [findItem, List.find?_cons, hq] using ih
    · simp [findItem, List.find?_cons, hq]

theorem itemCount_mapFirstRBN_update (l : List NotificationRecordByName)
    (nm hcU : String) (now : Nat) (nQ hQ : String) :
    itemCount l nQ hQ ≤
      itemCount (mapFirstRBN l nm (fun r =>
        { r with notificationRecordItems := some (mapFirstItem (itemsOf r) hcU (updateItem now)) })) nQ hQ := by
  induction l with
  | nil => simp [mapFirstRBN]
  | cons a as ih =>
    cases hn : a.notificationName == nm <;> cases hq : a.notificationName == nQ
    · simpa [itemCount, mapFirstRBN, findRBN, hn, hq] using ih
    · simp [itemCount, mapFirstRBN, findRBN, hn, hq]
    · simp [itemCount, mapFirstRBN, findRBN, hn, hq]
    · simp only [itemCount, mapFirstRBN, findRBN, hn, hq, if_true]
      simpa [itemsOf] using optItemCount_mapFirstItem_update (itemsOf a) hcU hQ now

theorem itemCount_mapFirstRBN_addItem (l : List NotificationRecordByName)
    (nm hcU : String) (nQ hQ : String) :
    itemCount (mapFirstRBN l nm (fun r => (addNotificationRecordItem hcU r).2)) nQ hQ
      = itemCount l nQ hQ := by
  induction l with
  | nil => simp [mapFirstRBN]
  | cons a as ih =>
    cases hn : a.notificationName == nm <;> cases hq : a.notificationName == nQ
    · simpa [itemCount, mapFirstRBN, findRBN, hn, hq] using ih
    · simp [itemCount, mapFirstRBN, findRBN, hn, hq]
    · simp [itemCount, mapFirstRBN, findRBN, hn, hq, addNotificationRecordItem]
    · simp only [itemCount, mapFirstRBN, findRBN, hn, hq, if_true, addNotificationRecordItem]
      simpa [itemsOf] using optItemCount_append_new (itemsOf a) hcU hQ

theorem itemCount_append_fresh (l : List NotificationRecordByName) (nm : String)
    (w : Nat) (nQ hQ : String) :
    itemCount (l ++ [freshRBN nm w]) nQ hQ = itemCount l nQ hQ := by
  induction l with
  | nil =>
    cases hq : nm == nQ <;>
      simp [itemCount, findRBN, freshRBN, hq, itemsOf, findItem, optItemCount]
  | cons a as ih =>
    cases hq : a.notificationName == nQ
    · simpa [itemCount, findRBN, hq] using ih
    · simp [itemCount, findRBN, hq]

theorem locateRecord_name (fn : FleetNotification) (mcID hcID : String)
    (mfnr : ManagedFleetNotificationRecord) :
    (locateRecord fn mcID hcID mfnr).name = mfnr.name := by
  unfold locateRecord
  split
  · split <;> rfl
  · rfl

theorem itemCount_locateRecord (fn : FleetNotification) (mcID hcID : String)
    (mfnr : ManagedFleetNotificationRecord) (nQ hQ : String) :
    itemCount (rbnList (locateRecord fn mcID hcID mfnr)) nQ hQ
      = itemCount (rbnList mfnr) nQ hQ := by
  unfold locateRecord
  split
  · split
    · rfl
    · simpa [rbnList] using itemCount_mapFirstRBN_addItem (rbnList mfnr) fn.name hcID nQ hQ
  · simpa [rbnList, addNotificationRecordByName, freshRBN] using
      itemCount_append_fresh (rbnList mfnr) fn.name fn.resendWait nQ hQ

theorem updateNotificationRecordItem_name (m m3 : ManagedFleetNotificationRecord)
    (nm hc : String) (now : Nat)
    (h : updateNotificationRecordItem m nm hc now = some m3) : m3.name = m.name := by
  unfold updateNotificationRecordItem at h
  rcases hf : findRBN (rbnList m) nm with _ | rbn
  · simp [hf] at h
  · simp only [hf] at h
    rcases hi : findItem (itemsOf rbn) hc with _ | it
    · simp [hi] at h
    · simp only [hi] at h
      injection h with h2
      subst h2
      rfl

theorem itemCount_updateNotificationRecordItem (m m3 : ManagedFleetNotificationRecord)
    (nm hc : String) (now : Nat)
    (h : updateNotificationRecordItem m nm hc now = some m3) (nQ hQ : String) :
    itemCount (rbnList m) nQ hQ ≤ itemCount (rbnList m3) nQ hQ := by
  unfold updateNotificationRecordItem at h
  rcases hf : findRBN (rbnList m) nm with _ | rbn
  · simp [hf] at h
  · simp only [hf] at h
    rcases hi : findItem (itemsOf rbn) hc with _ | it
    · simp [hi] at h
    · simp only [hi] at h
      injection h with h2
      subst h2
      simpa [rbnList] using itemCount_mapFirstRBN_update (rbnList m) nm hc now nQ hQ

theorem storeCount_storeSet (st : Store) (r : ManagedFleetNotificationRecord)
    (k nQ hQ : String) :
    storeCount (storeSet st r) k nQ hQ =
      if (k == r.name) = true then itemCount (rbnList r) nQ hQ
      else storeCount st k nQ hQ := by
  cases hk : k == r.name <;> simp [storeCount, storeSet, hk]

theorem storeCount_write_zero (st : Store) (r : ManagedFleetNotificationRecord)
    (k nQ hQ : String)
    (hz : itemCount (rbnList r) nQ hQ = 0)
    (hst : st r.name = none ∨ (∀ nQ2 hQ2, storeCount st r.name nQ2 hQ2 = 0)) :
    storeCount (storeSet st r) k nQ hQ = storeCount st k nQ hQ := by
  rw [storeCount_storeSet]
  by_cases hk : (k == r.name) = true
  · rw [if_pos hk, hz, eq_of_beq hk]
    rcases hst with hst | hst
    · simp [storeCount, hst]
    · rw [hst nQ hQ]
  · rw [if_neg hk]

theorem storeGet_ok (st : Store) (key : String) (env : FaultEnv)
    (r : ManagedFleetNotificationRecord) (h : storeGet st key env = Except.ok r) :
    st key = some r := by
  unfold storeGet at h
  rcases hg : env.getErr with _ | e
  · simp only [hg] at h
    rcases hs : st key with _ | r2
    · simp [hs] at h
    · simp only [hs] at h
      injection h with h2
      exact congrArg some h2
  · simp [hg] at h

theorem storeCreate_ok (st : Store) (r : ManagedFleetNotificationRecord) (env : FaultEnv)
    (st1 : Store) (h : storeCreate st r env = Except.ok st1) :
    st r.name = none ∧ st1 = storeSet st r := by
  unfold storeCreate at h
  rcases hs : st r.name with _ | r2
  · simp only [hs, Option.isSome_none, Bool.false_eq_true, if_false] at h
    rcases hc : env.createErr with _ | e
    · simp only [hc] at h
      injection h with h2
      exact ⟨rfl, h2.symm⟩
    · simp [hc] at h
  · simp [hs] at h

theorem processAlertFrom_store_empty (fn : FleetNotification) (mcID hcID : String)
    (mfnr : ManagedFleetNotificationRecord) (tr : List Event) (store : Store)
    (env : FaultEnv)
    (hcase : (mfnr.status.managementCluster == "") = true ∨ rbnList mfnr = []) :
    (processAlertFrom fn mcID hcID mfnr tr store env).2.2 = store
  ∨ (processAlertFrom fn mcID hcID mfnr tr store env).2.2
      = storeSet store (setInitialStatus mcID mfnr) := by
  unfold processAlertFrom
  split
  · split
    · left; rfl
    · rw [processAlertMain_no_rbn fn mcID hcID (setInitialStatus mcID mfnr) _ _ _
        (getRBN_empty (setInitialStatus mcID mfnr) mcID fn.name rfl)]
      right; rfl
  · next hne =>
    have hempty : rbnList mfnr = [] := by
      rcases hcase with hcase | hcase
      · exact absurd hcase hne
      · exact hcase
    rw [processAlertMain_no_rbn fn mcID hcID mfnr _ _ _
      (getRBN_empty mfnr mcID fn.name hempty)]
    left; rfl

theorem processAlertMain_store_spec (fn : FleetNotification) (mcID hcID : String)
    (mfnr : ManagedFleetNotificationRecord) (tr : List Event) (store : Store)
    (env : FaultEnv) :
    (processAlertMain fn mcID hcID mfnr tr store env).2.2 = store
  ∨ (env.sendErr = none
      ∧ ∃ m3, updateNotificationRecordItem (locateRecord fn mcID hcID mfnr) fn.name hcID
            env.now = some m3
          ∧ (processAlertMain fn mcID hcID mfnr tr store env).2.2 = storeSet store m3
          ∧ (processAlertMain fn mcID hcID mfnr tr store env).2.1.any isSendEvent = true) := by
  rcases hc : canBeSent (locateRecord fn mcID hcID mfnr) mcID fn.name hcID env.now with _ | b
  · left; simp [processAlertMain, hc]
  · cases b
    · left; simp [processAlertMain, hc]
    · rcases hs : env.sendErr with _ | s
      · rcases hu : updateNotificationRecordItem (locateRecord fn mcID hcID mfnr) fn.name
            hcID env.now with _ | m3
        · left; simp [processAlertMain, hc, hs, hu]
        · rcases he : env.updateErr with _ | e2
          · right
            refine ⟨rfl, m3, rfl, ?_, ?_⟩
            · simp [processAlertMain, hc, hs, hu, he]
            · simp [processAlertMain, hc, hs, hu, he, isSendEvent, sendEventFor]
          · left; simp [processAlertMain, hc, hs, hu, he]
      · left; simp [processAlertMain, hc, hs]

/-- C5: across one processAlert call the persisted sent counter of every
(record, template name, hosted cluster) triple never decreases, and a
strict increase can only happen when the external send succeeded: it
implies no injected send failure and a send event in the trace. -/
theorem processAlert_sent_count_monotone (alert : Alert)
    (mfn : ManagedFleetNotification) (store : Store) (env : FaultEnv)
    (hwf : ∀ rec, store (mcIdOf alert) = some rec →
        rec.name = mcIdOf alert ∧ statusInitialized rec)
    (k nQ hQ : String) :
    storeCount store k nQ hQ ≤ storeCount (processAlert alert mfn store env).2.2 k nQ hQ
  ∧ (storeCount store k nQ hQ < storeCount (processAlert alert mfn store env).2.2 k nQ hQ →
      env.sendErr = none ∧ (processAlert alert mfn store env).2.1.any isSendEvent = true) := by
  rcases hg : storeGet store (mcIdOf alert) env with e | rec
  · by_cases hnf : (e == K8sErr.notFound) = true
    · rcases hcr : storeCreate store (createManagedFleetNotificationRecord (mcIdOf alert)) env
        with e2 | store1
      · have hres : (processAlert alert mfn store env).2.2 = store := by
          simp only [processAlert, hg, hnf, if_true, hcr]
        rw [hres]
        exact ⟨le_refl _, fun hlt => absurd hlt (lt_irrefl _)⟩
      · obtain ⟨hnone, hst1⟩ := storeCreate_ok store _ env store1 hcr
        have hres : (processAlert alert mfn store env).2.2
            = (processAlertFrom mfn.spec.fleetNotification (mcIdOf alert) (hcIdOf alert)
                (createManagedFleetNotificationRecord (mcIdOf alert))
                ([Event.getRecord (mcIdOf alert)] ++
                  [Event.createRecord (createManagedFleetNotificationRecord (mcIdOf alert))])
                store1 env).2.2 := by
          simp only [processAlert, hg, hnf, if_true, hcr]
        have hzero1 : ∀ nQ2 hQ2, storeCount store1
            (createManagedFleetNotificationRecord (mcIdOf alert)).name nQ2 hQ2 = 0 := by
          intro nQ2 hQ2
          rw [hst1, storeCount_storeSet]
          simp [itemCount, rbnList, createManagedFleetNotificationRecord, findRBN]
        have heq : storeCount (processAlert alert mfn store env).2.2 k nQ hQ
            = storeCount store k nQ hQ := by
          rw [hres]
          rcases processAlertFrom_store_empty mfn.spec.fleetNotification (mcIdOf alert)
              (hcIdOf alert) (createManagedFleetNotificationRecord (mcIdOf alert))
              _ store1 env (Or.inr rfl) with hfin | hfin
          · rw [hfin, hst1]
            exact storeCount_write_zero store _ k nQ hQ
              (by simp [itemCount, rbnList, createManagedFleetNotificationRecord, findRBN])
              (Or.inl hnone)
          · rw [hfin]
            have hz2 : ∀ nQ2 hQ2, storeCount store1
                (setInitialStatus (mcIdOf alert)
                  (createManagedFleetNotificationRecord (mcIdOf alert))).name nQ2 hQ2 = 0 :=
              hzero1
            rw [storeCount_write_zero store1 _ k nQ hQ
              (by simp [itemCount, rbnList, setInitialStatus, findRBN]) (Or.inr hz2), hst1]
            exact storeCount_write_zero store _ k nQ hQ
              (by simp [itemCount, rbnList, createManagedFleetNotificationRecord, findRBN])
              (Or.inl hnone)
        rw [heq]
        exact ⟨le_refl _, fun hlt => absurd hlt (lt_irrefl _)⟩
    · have hres : (processAlert alert mfn store env).2.2 = store := by
        simp only [processAlert, hg]
        rw [if_neg hnf]
      rw [hres]
      exact ⟨le_refl _, fun hlt => absurd hlt (lt_irrefl _)⟩
  · obtain ⟨hname, hinit⟩ := hwf rec (storeGet_ok store _ env rec hg)
    by_cases hmc : (rec.status.managementCluster == "") = true
    · have hempty : rbnList rec = [] := hinit (eq_of_beq hmc)
      have hres : (processAlert alert mfn store env).2.2
          = (processAlertFrom mfn.spec.fleetNotification (mcIdOf alert) (hcIdOf alert) rec
              [Event.getRecord (mcIdOf alert)] store env).2.2 := by
        simp only [processAlert, hg]
      have hzeroStore : ∀ nQ2 hQ2, storeCount store rec.name nQ2 hQ2 = 0 := by
        intro nQ2 hQ2
        unfold storeCount
        rw [hname, storeGet_ok store _ env rec hg]
        simp [itemCount, hempty, findRBN]
      have heq : storeCount (processAlert alert mfn store env).2.2 k nQ hQ
          = storeCount store k nQ hQ := by
        rw [hres]
        rcases processAlertFrom_store_empty mfn.spec.fleetNotification (mcIdOf alert)
            (hcIdOf alert) rec [Event.getRecord (mcIdOf alert)] store env (Or.inl hmc)
          with hfin | hfin
        · rw [hfin]
        · rw [hfin]
          exact storeCount_write_zero store _ k nQ hQ
            (by simp [itemCount, rbnList, setInitialStatus, findRBN]) (Or.inr hzeroStore)
      rw [heq]
      exact ⟨le_refl _, fun hlt => absurd hlt (lt_irrefl _)⟩
    · have hpa : processAlert alert mfn store env
          = processAlertMain mfn.spec.fleetNotification (mcIdOf alert) (hcIdOf alert) rec
              [Event.getRecord (mcIdOf alert)] store env := by
        simp only [processAlert, hg, processAlertFrom]
        rw [if_neg hmc]
      rcases processAlertMain_store_spec mfn.spec.fleetNotification (mcIdOf alert)
          (hcIdOf alert) rec [Event.getRecord (mcIdOf alert)] store env
        with hfin | ⟨hsend, m3, hm3, hfin, hany⟩
      · rw [hpa, hfin]
        exact ⟨le_refl _, fun hlt => absurd hlt (lt_irrefl _)⟩
      · have hm3name : m3.name = mcIdOf alert := by
          rw [updateNotificationRecordItem_name _ _ _ _ _ hm3, locateRecord_name, hname]
        constructor
        · rw [hpa, hfin, storeCount_storeSet]
          by_cases hk : (k == m3.name) = true
          · rw [if_pos hk]
            have hkmc : k = mcIdOf alert := (eq_of_beq hk).trans hm3name
            have h1 : storeCount store k nQ hQ = itemCount (rbnList rec) nQ hQ := by
              unfold storeCount
              rw [hkmc, storeGet_ok store _ env rec hg]
            rw [h1]
            calc itemCount (rbnList rec) nQ hQ
                = itemCount (rbnList (locateRecord mfn.spec.fleetNotification
                    (mcIdOf alert) (hcIdOf alert) rec)) nQ hQ :=
                  (itemCount_locateRecord mfn.spec.fleetNotification (mcIdOf alert)
                    (hcIdOf alert) rec nQ hQ).symm
              _ ≤ itemCount (rbnList m3) nQ hQ :=
                  itemCount_updateNotificationRecordItem _ m3 _ _ _ hm3 nQ hQ
          · rw [if_neg hk]
        · intro _
          exact ⟨hsend, by rw [hpa]; exact hany⟩

/-- C5 witness: monotonicity of the sample counter across the successful
sample run. -/
theorem processAlert_sent_count_monotone_witness :
    storeCount sampleStore "mc1" "notif" "hc1"
      ≤ storeCount (processAlert sampleAlert sampleMFN sampleStore okFaultEnv).2.2
          "mc1" "notif" "hc1" :=
  (processAlert_sent_count_monotone sampleAlert sampleMFN sampleStore okFaultEnv
    (fun rec h => by
      have h2 : some readyRecord = some rec := h
      injection h2 with h3
      subst h3
      exact ⟨rfl, fun hmc => absurd hmc (by decide)⟩)
    "mc1" "notif" "hc1").1

/-- C10 witness: the aliasing theorem at a concrete record. -/
theorem addNotificationRecordByName_aliasing_witness :
    (addNotificationRecordByName "notif" 60 "hc1" readyRecord).2.status.notificationRecordByName
        = some (rbnList readyRecord ++ [freshRBN "notif" 60]) :=
  (addNotificationRecordByName_aliasing "notif" 60 "hc1" readyRecord).1
